import Mathlib

/-!
Shallow embedding of the core of the `linkedin-connections-extension`
repository (cache-manager.ts, error-handler.ts, request-queue.ts,
connections-service.ts) and proofs about the claims of its specification.

JavaScript strings are modelled as `List Char` (unicode scalar values),
bytes as `Nat` below 256, and `Date.now()` as an explicit `Nat` parameter.
Asynchronous code is modelled as explicit state passing; `sleep` calls are
recorded in traces.  Exceptions are modelled with `Option`/`Except`.
-/

namespace LinkedInExt

/-- JavaScript string, modelled as a list of unicode scalar characters. -/
abbrev JStr := List Char

/-- The character `{` (written via its code point). -/
def lbrace : Char := Char.ofNat 123

/-- The character `}` (written via its code point). -/
def rbrace : Char := Char.ofNat 125

/-- Decimal digit character for a value below 10 (as produced by JS number
formatting). -/
def digitChar : Nat → Char
  | 0 => '0' | 1 => '1' | 2 => '2' | 3 => '3' | 4 => '4'
  | 5 => '5' | 6 => '6' | 7 => '7' | 8 => '8' | _ => '9'

/-- Lower-case hexadecimal digit character for a value below 16 (as produced
by `JSON.stringify` unicode escapes). -/
def hexDigit : Nat → Char
  | 0 => '0' | 1 => '1' | 2 => '2' | 3 => '3' | 4 => '4'
  | 5 => '5' | 6 => '6' | 7 => '7' | 8 => '8' | 9 => '9'
  | 10 => 'a' | 11 => 'b' | 12 => 'c' | 13 => 'd' | 14 => 'e' | _ => 'f'

/-- Is `c` an ASCII decimal digit? -/
def isDigitCh (c : Char) : Bool := 48 ≤ c.toNat && c.toNat ≤ 57

/-- Hexadecimal value of a digit character (as accepted by `JSON.parse`
unicode escapes). -/
def hexVal (c : Char) : Option Nat :=
  if 48 ≤ c.toNat && c.toNat ≤ 57 then some (c.toNat - 48)
  else if 97 ≤ c.toNat && c.toNat ≤ 102 then some (c.toNat - 87)
  else if 65 ≤ c.toNat && c.toNat ≤ 70 then some (c.toNat - 55)
  else none

/-- Decimal rendering of a natural number, least-significant digit computed
first, with an explicit fuel argument so that the definition is structural
(the fuel `n + 1` always suffices). Models JS number-to-string for integers. -/
def natToDecAux : Nat → Nat → JStr → JStr
  | 0, _, acc => acc
  | fuel + 1, n, acc =>
    if n < 10 then digitChar n :: acc
    else natToDecAux fuel (n / 10) (digitChar (n % 10) :: acc)

/-- Decimal rendering of a natural number (JS `String(n)` for integers). -/
def natToDec (n : Nat) : JStr := natToDecAux (n + 1) n []

/-- Greedy decimal-digit accumulator used by the number parser. -/
def parseDecAux : JStr → Nat → Nat × JStr
  | [], acc => (acc, [])
  | c :: cs, acc =>
    if isDigitCh c then parseDecAux cs (acc * 10 + (c.toNat - 48))
    else (acc, c :: cs)

/-- Parse a non-empty run of decimal digits (JSON number, non-negative
integer case). -/
def parseDec : JStr → Option (Nat × JStr)
  | [] => none
  | c :: cs =>
    if isDigitCh c then some (parseDecAux (c :: cs) 0) else none

/-- `JSON.stringify` escaping of one character inside a string literal:
quote and backslash are backslash-escaped, the common control characters
get their short escapes, the remaining control characters are written as
`\u00xx`, and everything else is kept as is. -/
def escChar (c : Char) : JStr :=
  if c = '"' then ['\\', '"']
  else if c = '\\' then ['\\', '\\']
  else if c.toNat = 8 then ['\\', 'b']
  else if c.toNat = 9 then ['\\', 't']
  else if c.toNat = 10 then ['\\', 'n']
  else if c.toNat = 12 then ['\\', 'f']
  else if c.toNat = 13 then ['\\', 'r']
  else if c.toNat < 32 then
    ['\\', 'u', '0', '0', hexDigit (c.toNat / 16), hexDigit (c.toNat % 16)]
  else [c]

/-- `JSON.stringify` escaping of a whole string body (without the outer
quotes). -/
def escapeString (s : JStr) : JStr := s.flatMap escChar

/-- Parse the body of a JSON string literal up to and including the closing
quote, returning the decoded string and the rest of the input.  Mirrors
`JSON.parse` string handling (raw control characters are rejected; `\u`
escapes outside the scalar range are rejected, which is the only place the
model diverges from UTF-16 surrogate pairs — Lean characters are scalars). -/
def parseJsonStr : JStr → Option (JStr × JStr)
  | [] => none
  | c :: rest =>
    if c = '"' then some ([], rest)
    else if c = '\\' then
      match rest with
      | [] => none
      | e :: rest2 =>
        if e = '"' then (parseJsonStr rest2).map (fun p => ('"' :: p.1, p.2))
        else if e = '\\' then (parseJsonStr rest2).map (fun p => ('\\' :: p.1, p.2))
        else if e = '/' then (parseJsonStr rest2).map (fun p => ('/' :: p.1, p.2))
        else if e = 'b' then (parseJsonStr rest2).map (fun p => (Char.ofNat 8 :: p.1, p.2))
        else if e = 't' then (parseJsonStr rest2).map (fun p => (Char.ofNat 9 :: p.1, p.2))
        else if e = 'n' then (parseJsonStr rest2).map (fun p => (Char.ofNat 10 :: p.1, p.2))
        else if e = 'f' then (parseJsonStr rest2).map (fun p => (Char.ofNat 12 :: p.1, p.2))
        else if e = 'r' then (parseJsonStr rest2).map (fun p => (Char.ofNat 13 :: p.1, p.2))
        else if e = 'u' then
          match rest2 with
          | h1 :: h2 :: h3 :: h4 :: rest3 =>
            match hexVal h1, hexVal h2, hexVal h3, hexVal h4 with
            | some a, some b, some c3, some d =>
              let n := ((a * 16 + b) * 16 + c3) * 16 + d
              if n < 55296 then
                (parseJsonStr rest3).map (fun p => (Char.ofNat n :: p.1, p.2))
              else none
            | _, _, _, _ => none
          | _ => none
        else none
    else if c.toNat < 32 then none
    else (parseJsonStr rest).map (fun p => (c :: p.1, p.2))

/-- Match an expected literal prefix, returning the rest of the input. -/
def expectLit : JStr → JStr → Option JStr
  | [], s => some s
  | _ :: _, [] => none
  | c :: cs, d :: ds => if d = c then expectLit cs ds else none

/-- Parse a JSON boolean literal. -/
def parseBool (s : JStr) : Option (Bool × JStr) :=
  match expectLit "true".toList s with
  | some r => some (true, r)
  | none =>
    match expectLit "false".toList s with
    | some r => some (false, r)
    | none => none

/-! ### Base64 (`btoa` / `atob`) and UTF-8 (`TextEncoder` / `TextDecoder`) -/

/-- The base64 alphabet character for a 6-bit value. -/
def b64Char (n : Nat) : Char :=
  if n < 26 then Char.ofNat (65 + n)
  else if n < 52 then Char.ofNat (97 + (n - 26))
  else if n < 62 then Char.ofNat (48 + (n - 52))
  else if n = 62 then '+' else '/'

/-- Is `c` a (non-padding) base64 alphabet character? -/
def isBase64Char (c : Char) : Bool :=
  (65 ≤ c.toNat && c.toNat ≤ 90) || (97 ≤ c.toNat && c.toNat ≤ 122) ||
  (48 ≤ c.toNat && c.toNat ≤ 57) || c = '+' || c = '/'

/-- Base64 encoding of a byte sequence with padding (JS `btoa` applied to a
binary string of these byte values). -/
def base64Encode : List Nat → JStr
  | [] => []
  | [b1] =>
    [b64Char (b1 / 4), b64Char (b1 % 4 * 16), '=', '=']
  | [b1, b2] =>
    [b64Char (b1 / 4), b64Char (b1 % 4 * 16 + b2 / 16), b64Char (b2 % 16 * 4), '=']
  | b1 :: b2 :: b3 :: rest =>
    b64Char (b1 / 4) :: b64Char (b1 % 4 * 16 + b2 / 16) ::
    b64Char (b2 % 16 * 4 + b3 / 64) :: b64Char (b3 % 64) :: base64Encode rest

/-- 6-bit value of a base64 alphabet character (0 for anything else; only
applied to alphabet characters). -/
def b64Val (c : Char) : Nat :=
  if 65 ≤ c.toNat && c.toNat ≤ 90 then c.toNat - 65
  else if 97 ≤ c.toNat && c.toNat ≤ 122 then c.toNat - 97 + 26
  else if 48 ≤ c.toNat && c.toNat ≤ 57 then c.toNat - 48 + 52
  else if c = '+' then 62 else 63

/-- Decode a padding-stripped base64 character sequence into bytes. -/
def b64DecodeChunks : JStr → List Nat
  | c1 :: c2 :: c3 :: c4 :: rest =>
    (b64Val c1 * 4 + b64Val c2 / 16) ::
    (b64Val c2 % 16 * 16 + b64Val c3 / 4) ::
    (b64Val c3 % 4 * 64 + b64Val c4) :: b64DecodeChunks rest
  | [c1, c2, c3] =>
    [b64Val c1 * 4 + b64Val c2 / 16, b64Val c2 % 16 * 16 + b64Val c3 / 4]
  | [c1, c2] =>
    [b64Val c1 * 4 + b64Val c2 / 16]
  | _ => []

/-- JS `atob`: fails (throws `InvalidCharacterError`) when the input contains
a character outside the base64 alphabet (plus padding), otherwise decodes. -/
def atobJS (s : JStr) : Option (List Nat) :=
  if s.all (fun c => isBase64Char c || c = '=') then
    some (b64DecodeChunks (s.filter isBase64Char))
  else none

/-- UTF-8 encoding of one scalar character (`TextEncoder`). -/
def utf8EncodeChar (c : Char) : List Nat :=
  let n := c.toNat
  if n < 128 then [n]
  else if n < 2048 then [192 + n / 64, 128 + n % 64]
  else if n < 65536 then [224 + n / 4096, 128 + n / 64 % 64, 128 + n % 64]
  else [240 + n / 262144, 128 + n / 4096 % 64, 128 + n / 64 % 64, 128 + n % 64]

/-- UTF-8 encoding of a string (`TextEncoder.encode`). -/
def utf8Encode (s : JStr) : List Nat := s.flatMap utf8EncodeChar

/-- Is `b` a UTF-8 continuation byte? -/
def isCont (b : Nat) : Bool := 128 ≤ b && b < 192

/-- Lenient UTF-8 decoding worker (`TextDecoder.decode`, which substitutes
U+FFFD for malformed sequences instead of throwing).  The fuel argument
makes the recursion structural; every step consumes at least one byte, so
fuel equal to the input length suffices. -/
def utf8DecodeAux : Nat → List Nat → JStr
  | 0, _ => []
  | fuel + 1, l =>
    match l with
    | [] => []
    | b1 :: rest =>
      if b1 < 128 then Char.ofNat b1 :: utf8DecodeAux fuel rest
      else if 194 ≤ b1 && b1 < 224 then
        match rest with
        | b2 :: rest2 =>
          if isCont b2 then
            Char.ofNat ((b1 - 192) * 64 + (b2 - 128)) :: utf8DecodeAux fuel rest2
          else Char.ofNat 65533 :: utf8DecodeAux fuel rest
        | [] => [Char.ofNat 65533]
      else if 224 ≤ b1 && b1 < 240 then
        match rest with
        | b2 :: b3 :: rest2 =>
          if isCont b2 && isCont b3 then
            let n := (b1 - 224) * 4096 + (b2 - 128) * 64 + (b3 - 128)
            (if 2048 ≤ n && ¬ (55296 ≤ n && n ≤ 57343) then Char.ofNat n
             else Char.ofNat 65533) :: utf8DecodeAux fuel rest2
          else Char.ofNat 65533 :: utf8DecodeAux fuel rest
        | _ => [Char.ofNat 65533]
      else if 240 ≤ b1 && b1 < 245 then
        match rest with
        | b2 :: b3 :: b4 :: rest2 =>
          if isCont b2 && isCont b3 && isCont b4 then
            let n := (b1 - 240) * 262144 + (b2 - 128) * 4096 + (b3 - 128) * 64 + (b4 - 128)
            (if 65536 ≤ n && n < 1114112 then Char.ofNat n else Char.ofNat 65533) ::
              utf8DecodeAux fuel rest2
          else Char.ofNat 65533 :: utf8DecodeAux fuel rest
        | _ => [Char.ofNat 65533]
      else Char.ofNat 65533 :: utf8DecodeAux fuel rest

/-- Lenient UTF-8 decoding (`TextDecoder.decode`). -/
def utf8Decode (l : List Nat) : JStr := utf8DecodeAux l.length l

/-! ### CacheManager (src/cache-manager.ts)

The cache payload type parameter `T` is instantiated at serialized string
payloads (`JStr`); `chrome.storage.local` is modelled as an association
list in insertion order, holding only the prefix-keyed cache entries
(the prefix filter of the source is kept in the scan operations). -/

/-- `CacheManager.CACHE_PREFIX`. -/
def cachePrefixStr : JStr := "linkedin_connections_".toList

/-- `CacheManager.DEFAULT_TTL` (5 minutes in ms). -/
def DEFAULT_TTL : Nat := 5 * 60 * 1000

/-- `CacheManager.MAX_CACHE_SIZE` (5 MB). -/
def MAX_CACHE_SIZE : Nat := 5 * 1024 * 1024

/-- `CacheManager.COMPRESSION_THRESHOLD` (1 KB). -/
def COMPRESSION_THRESHOLD : Nat := 1024

/-- The value stored under a cache key by `CacheManager.set`:
`\x7b ...cacheEntry, compressed, size \x7d` — note the source spreads the
*original* entry (`data`, `timestamp`, `ttl`) and adds the two bookkeeping
fields; the compressed string itself is **not** stored. -/
structure StoredEntry where
  data : JStr
  timestamp : Nat
  ttl : Nat
  compressed : Bool
  size : Nat
deriving Repr, DecidableEq

/-- The `chrome.storage.local` area as used by the cache: an association
list from full (prefixed) keys to stored entries, in insertion order. -/
abbrev Store := List (JStr × StoredEntry)

/-- `chrome.storage.local.set` on one key (update in place or append). -/
def storageSet (s : Store) (k : JStr) (v : StoredEntry) : Store :=
  match s with
  | [] => [(k, v)]
  | (k', v') :: rest => if k' = k then (k, v) :: rest else (k', v') :: storageSet rest k v

/-- `chrome.storage.local.get` on one key. -/
def storageGet (s : Store) (k : JStr) : Option StoredEntry :=
  match s with
  | [] => none
  | (k', v') :: rest => if k' = k then some v' else storageGet rest k

/-- `chrome.storage.local.remove` of a set of keys. -/
def storageRemoveKeys (s : Store) (ks : List JStr) : Store :=
  s.filter (fun kv => !(ks.contains kv.1))

/-- The full storage key used for a cache key. -/
def cacheKey (key : JStr) : JStr := cachePrefixStr ++ key

/-- JSON field-name literal `"name":`. -/
def jsonKeyLit (name : JStr) : JStr := '"' :: (name ++ ['"', ':'])

/-- `JSON.stringify` of a boolean. -/
def boolLit (b : Bool) : JStr := if b then "true".toList else "false".toList

/-- `JSON.stringify(cacheEntry)` for the three-field entry built in
`CacheManager.set` (fields in declaration order: data, timestamp, ttl). -/
def serializeEntry3 (data : JStr) (timestamp ttl : Nat) : JStr :=
  lbrace :: (jsonKeyLit "data".toList ++ ('"' :: (escapeString data ++ ['"', ','])) ++
    jsonKeyLit "timestamp".toList ++ natToDec timestamp ++ [','] ++
    jsonKeyLit "ttl".toList ++ natToDec ttl ++ [rbrace])

/-- `JSON.stringify(cacheEntry)` for a stored entry as re-serialized in
`CacheManager.get` (spread order: data, timestamp, ttl, compressed, size). -/
def serializeEntry5 (e : StoredEntry) : JStr :=
  lbrace :: (jsonKeyLit "data".toList ++ ('"' :: (escapeString e.data ++ ['"', ','])) ++
    jsonKeyLit "timestamp".toList ++ natToDec e.timestamp ++ [','] ++
    jsonKeyLit "ttl".toList ++ natToDec e.ttl ++ [','] ++
    jsonKeyLit "compressed".toList ++ boolLit e.compressed ++ [','] ++
    jsonKeyLit "size".toList ++ natToDec e.size ++ [rbrace])

/-- `JSON.parse` of a string produced by `serializeEntry5` (the only shape
the compressed read path of `CacheManager.get` ever parses), yielding the
parsed object; fails (models a thrown `SyntaxError`) on any other input. -/
def parseEntry5 (s : JStr) : Option StoredEntry := do
  let s ← expectLit (lbrace :: (jsonKeyLit "data".toList ++ ['"'])) s
  let (data, s) ← parseJsonStr s
  let s ← expectLit (',' :: jsonKeyLit "timestamp".toList) s
  let (timestamp, s) ← parseDec s
  let s ← expectLit (',' :: jsonKeyLit "ttl".toList) s
  let (ttl, s) ← parseDec s
  let s ← expectLit (',' :: jsonKeyLit "compressed".toList) s
  let (compressed, s) ← parseBool s
  let s ← expectLit (',' :: jsonKeyLit "size".toList) s
  let (size, s) ← parseDec s
  let s ← expectLit [rbrace] s
  if s = [] then pure ⟨data, timestamp, ttl, compressed, size⟩ else none

/-- `CacheManager.compressData`: `btoa(String.fromCharCode(...new
TextEncoder().encode(data)))`. -/
def compressData (data : JStr) : JStr := base64Encode (utf8Encode data)

/-- `CacheManager.decompressData`: `atob` then `TextDecoder`; on any
failure the catch block returns the input unchanged. -/
def decompressData (data : JStr) : JStr :=
  match atobJS data with
  | some bytes => utf8Decode bytes
  | none => data

/-- The result of `CacheManager.getCacheStats`. -/
structure CacheStats where
  totalItems : Nat
  totalSize : Nat
  oldestEntry : Option Nat
  newestEntry : Option Nat
  expiredItems : Nat
deriving Repr, DecidableEq

/-- One `forEach` step of `CacheManager.getCacheStats` (JS truthiness on
`entry.size` and `entry.timestamp` is modelled as `≠ 0`). -/
def statsStep (now : Nat) (acc : CacheStats) (e : StoredEntry) : CacheStats :=
  let acc := { acc with
    totalSize := acc.totalSize + (if e.size ≠ 0 then e.size else (serializeEntry5 e).length) }
  if e.timestamp ≠ 0 then
    let acc := { acc with
      oldestEntry := match acc.oldestEntry with
        | none => some e.timestamp
        | some o => if e.timestamp < o then some e.timestamp else some o
      newestEntry := match acc.newestEntry with
        | none => some e.timestamp
        | some n => if n < e.timestamp then some e.timestamp else some n }
    if now - e.timestamp > e.ttl then { acc with expiredItems := acc.expiredItems + 1 }
    else acc
  else acc

/-- `CacheManager.getCacheStats` (scan of all prefix-keyed entries). -/
def getCacheStatsM (store : Store) (now : Nat) : CacheStats :=
  let items := store.filter (fun kv => cachePrefixStr.isPrefixOf kv.1)
  let base : CacheStats := ⟨items.length, 0, none, none, 0⟩
  items.foldl (fun acc kv => statsStep now acc kv.2) base

/-- `CacheManager.cleanupExpired`: removes every prefix-keyed entry with
truthy timestamp and ttl whose TTL has lapsed; returns the new store and
the number of removed keys. -/
def cleanupExpiredM (store : Store) (now : Nat) : Store × Nat :=
  let expired := store.filter (fun kv =>
    cachePrefixStr.isPrefixOf kv.1 && kv.2.timestamp != 0 && kv.2.ttl != 0 &&
      decide (now - kv.2.timestamp > kv.2.ttl))
  (storageRemoveKeys store (expired.map (·.1)), expired.length)

/-- `CacheManager.removeOldestItems`: stable sort of the prefix-keyed
entries by ascending timestamp, drop the first `count` keys. -/
def removeOldestItemsM (store : Store) (count : Nat) : Store :=
  let items := store.filter (fun kv => cachePrefixStr.isPrefixOf kv.1)
  let sorted := items.mergeSort (fun a b => a.2.timestamp ≤ b.2.timestamp)
  storageRemoveKeys store ((sorted.take count).map (·.1))

/-- `CacheManager.enforceStorageLimit`: only when the **current** total
size exceeds the ceiling, first cleanup expired entries, then, if still
over, remove the oldest 30 % of items. -/
def enforceStorageLimitM (store : Store) (now : Nat) : Store :=
  let stats := getCacheStatsM store now
  if stats.totalSize > MAX_CACHE_SIZE then
    let store1 := (cleanupExpiredM store now).1
    let stats1 := getCacheStatsM store1 now
    if stats1.totalSize > MAX_CACHE_SIZE then
      removeOldestItemsM store1 ((stats1.totalItems * 3 + 9) / 10)
    else store1
  else store

/-- The stored entry written by `CacheManager.set` for payload `data` at
time `now` with the given `ttl`. -/
def mkStoredEntry (data : JStr) (ttl now : Nat) : StoredEntry :=
  let serialized0 := serializeEntry3 data now ttl
  let serialized :=
    if serialized0.length > COMPRESSION_THRESHOLD then compressData serialized0
    else serialized0
  ⟨data, now, ttl, serialized.length > COMPRESSION_THRESHOLD, serialized.length⟩

/-- `CacheManager.set` (state-passing form). -/
def setM (store : Store) (key : JStr) (data : JStr) (ttl : Nat) (now : Nat) : Store :=
  let store1 := enforceStorageLimitM store now
  storageSet store1 (cacheKey key) (mkStoredEntry data ttl now)

/-- `CacheManager.get` (state-passing form): returns the value (`none`
models both a miss and the `catch` branch returning `null`) and the
possibly-updated store (lazy expiry removes the entry). -/
def getM (store : Store) (key : JStr) (now : Nat) : Option JStr × Store :=
  match storageGet store (cacheKey key) with
  | none => (none, store)
  | some e =>
    if now - e.timestamp > e.ttl then
      (none, storageRemoveKeys store [cacheKey key])
    else if e.compressed then
      ((parseEntry5 (decompressData (serializeEntry5 e))).map (·.data), store)
    else (some e.data, store)

/-! ### ErrorHandler (src/error-handler.ts) -/

/-- The `ErrorType` enum. -/
inductive ErrorType
  | AUTHENTICATION | NETWORK | RATE_LIMIT | PARSING | CACHE
  | PERMISSION | TIMEOUT | UNKNOWN
deriving Repr, DecidableEq

/-- A raw JS `Error` as far as the code inspects it (`name`, `message`). -/
structure ErrObj where
  name : JStr
  message : JStr
deriving Repr, DecidableEq

/-- `ErrorHandler.isRecoverable`. -/
def isRecoverable : ErrorType → Bool
  | .NETWORK | .TIMEOUT | .RATE_LIMIT => true
  | .AUTHENTICATION | .PERMISSION => false
  | .PARSING | .CACHE | .UNKNOWN => true

/-- `ErrorHandler.getUserMessage`. -/
def getUserMessage (t : ErrorType) : JStr :=
  match t with
  | .AUTHENTICATION => "Please log in to LinkedIn and try again.".toList
  | .NETWORK => "Network connection issue. Please check your internet connection.".toList
  | .RATE_LIMIT => "LinkedIn is limiting requests. Please wait a moment and try again.".toList
  | .PARSING => "Unable to process LinkedIn data. This may be due to changes in LinkedIn\x27s interface.".toList
  | .CACHE => "Cache error occurred. Your data may need to be refreshed.".toList
  | .PERMISSION => "Extension permissions are required. Please check your browser settings.".toList
  | .TIMEOUT => "Request timed out. Please try again.".toList
  | .UNKNOWN => "An unexpected error occurred. Please try refreshing the page.".toList

/-- `ErrorHandler.getSuggestedAction`. -/
def getSuggestedAction (t : ErrorType) : JStr :=
  match t with
  | .AUTHENTICATION => "Navigate to LinkedIn and log in to your account".toList
  | .NETWORK => "Check your internet connection and try again".toList
  | .RATE_LIMIT => "Wait 5-10 minutes before making more requests".toList
  | .PARSING => "Clear cache and refresh the extension".toList
  | .CACHE => "Clear cache from the dashboard settings".toList
  | .PERMISSION => "Check Chrome extension permissions in browser settings".toList
  | .TIMEOUT => "Try again with a stable internet connection".toList
  | .UNKNOWN => "Refresh the page or restart the extension".toList

/-- An `ExtensionError` record (context omitted: it is an opaque map the
logic never inspects). -/
structure ExtensionError where
  type : ErrorType
  message : JStr
  originalError : Option ErrObj
  timestamp : Nat
  recoverable : Bool
  userMessage : JStr
deriving Repr, DecidableEq

/-- A serialized critical-error record as stored durably
(`originalError` replaced by its message or `null`). -/
structure CriticalError where
  type : ErrorType
  message : JStr
  originalErrorMsg : Option JStr
  timestamp : Nat
deriving Repr, DecidableEq

/-- `ErrorHandler.MAX_LOG_SIZE`. -/
def MAX_LOG_SIZE : Nat := 100

/-- The mutable state of the `ErrorHandler` class: the rolling in-memory
log (newest first) and the durable `critical_errors` list in
`chrome.storage.local` (newest first). -/
structure ErrorHandlerState where
  errorLog : List ExtensionError
  criticalErrors : List CriticalError
deriving Repr, DecidableEq

/-- The initial `ErrorHandler` state. -/
def initErrorState : ErrorHandlerState := ⟨[], []⟩

/-- `ErrorHandler.storeCriticalError`. -/
def storeCriticalError (s : ErrorHandlerState) (e : ExtensionError) : ErrorHandlerState :=
  { s with criticalErrors :=
      ((⟨e.type, e.message, e.originalError.map (·.message), e.timestamp⟩ : CriticalError)
        :: s.criticalErrors).take 10 }

/-- `ErrorHandler.logError`: unshift onto the rolling log, cap it at
`MAX_LOG_SIZE` dropping the oldest, and store non-recoverable errors
durably. -/
def logError (s : ErrorHandlerState) (e : ExtensionError) : ErrorHandlerState :=
  let log1 := e :: s.errorLog
  let log2 := if log1.length > MAX_LOG_SIZE then log1.take MAX_LOG_SIZE else log1
  let s := { s with errorLog := log2 }
  if !e.recoverable then storeCriticalError s e else s

/-- `ErrorHandler.createError` (returns the created error and the updated
state). -/
def createError (s : ErrorHandlerState) (t : ErrorType) (message : JStr)
    (originalError : Option ErrObj) (now : Nat) : ExtensionError × ErrorHandlerState :=
  let e : ExtensionError :=
    ⟨t, message, originalError, now, isRecoverable t, getUserMessage t⟩
  (e, logError s e)

/-- One classification request, as fed to `createError`. -/
structure ClassifyInput where
  type : ErrorType
  message : JStr
  originalError : Option ErrObj
  now : Nat
deriving Repr, DecidableEq

/-- Run a sequence of classifications through the handler. -/
def runClassifications (s : ErrorHandlerState) : List ClassifyInput → ErrorHandlerState
  | [] => s
  | i :: is => runClassifications (createError s i.type i.message i.originalError i.now).2 is

/-- JS `String.prototype.includes`. -/
def strIncludes (needle : JStr) : JStr → Bool
  | [] => needle.isEmpty
  | c :: cs => needle.isPrefixOf (c :: cs) || strIncludes needle cs

/-- `ErrorHandler.handleNetworkError`: the error-kind inference applied to
every batch/network failure. -/
def classifyNetwork (e : ErrObj) : ErrorType :=
  if strIncludes "timeout".toList e.message || e.name = "AbortError".toList then
    .TIMEOUT
  else if strIncludes "429".toList e.message || strIncludes "rate limit".toList e.message then
    .RATE_LIMIT
  else .NETWORK

/-! ### RequestQueue (request-queue.ts) -/

/-- `RequestQueue.maxRetries`. -/
def maxRetries : Nat := 3

/-- `RequestQueue.minDelay` / `maxDelay` (ms). -/
def minDelay : Nat := 300

/-- `RequestQueue.maxDelay` (ms). -/
def maxDelay : Nat := 1000

/-- A queued request item (`EnhancedRequestQueueItem`); the completion
callbacks are represented by the item's identity (`url`). -/
structure QItem where
  url : JStr
  priority : Nat
  retries : Nat
deriving Repr, DecidableEq

/-- The priority insertion of `RequestQueue.enqueue`: find the first index
whose priority is strictly lower and splice the new item in before it;
otherwise push to the back.  Ties therefore preserve insertion order. -/
def insertByPriority (q : List QItem) (item : QItem) : List QItem :=
  match q with
  | [] => [item]
  | x :: xs =>
    if x.priority < item.priority then item :: x :: xs
    else x :: insertByPriority xs item

/-- `processQueue` takes the head of the queue (`this.queue.shift()`). -/
def dispatchNext (q : List QItem) : Option (QItem × List QItem) :=
  match q with
  | [] => none
  | x :: xs => some (x, xs)

/-- The order in which a queue's items are dispatched by repeatedly
shifting the head. -/
def drainOrder (q : List QItem) : List JStr :=
  match q with
  | [] => []
  | x :: xs => x.url :: drainOrder xs

/-- `makeRequest`'s 429 handling: the new shared global backoff and the
computed `backoffTime` (`retry-after` header seconds, or 5000 ms default). -/
def observeThrottle (current : Nat) (retryAfterHeader : Option Nat) : Nat × Nat :=
  let backoffTime := match retryAfterHeader with
    | some r => r * 1000
    | none => 5000
  (max current backoffTime, backoffTime)

/-- The sleeps performed by one `processQueue` cycle before dispatching,
and the backoff value after the cycle: sleep the whole backoff then decay
it by the fixed 1000 ms step, then top up the jittered minimum
inter-request delay. -/
def cycleSleeps (backoff timeSince requiredDelay : Nat) : List Nat × Nat :=
  let (s1, backoff') :=
    if backoff > 0 then ([backoff], max 0 (backoff - 1000)) else ([], backoff)
  let s2 := if timeSince < requiredDelay then [requiredDelay - timeSince] else []
  (s1 ++ s2, backoff')

/-- The global backoff after one worker cycle (`processQueue` decay step). -/
def backoffAfterCycle (backoff : Nat) : Nat :=
  (cycleSleeps backoff 0 0).2

/-- One attempt outcome for a queued request, as scripted for the model
transport. -/
inductive AttemptResult
  | success (resp : JStr)
  | failure (e : ErrObj)
deriving Repr, DecidableEq

/-- The final state of a queue item's completion handle. -/
inductive ItemOutcome
  | resolved (resp : JStr)
  | rejected (e : ErrObj)
  | pending
deriving Repr, DecidableEq

/-- `handleRequestError`'s retryability test: rate-limit errors (message
contains "Rate limited"), timeouts (`AbortError`), and network failures
(message contains "fetch"). -/
def isRetryableErr (e : ErrObj) : Bool :=
  strIncludes "Rate limited".toList e.message || e.name = "AbortError".toList ||
    strIncludes "fetch".toList e.message

/-- The life of one queue item against a scripted list of attempt
outcomes: `processQueue` dispatches it, on failure `handleRequestError`
either re-queues it with `retries` incremented (when still below
`maxRetries` and the error is retryable) or rejects it terminally; on
success it is resolved.  For a queue holding only this item the re-queued
item is dispatched next, giving this recursion. -/
def runItemAttempts (retries : Nat) : List AttemptResult → ItemOutcome
  | [] => .pending
  | .success v :: _ => .resolved v
  | .failure e :: rest =>
    if retries < maxRetries && isRetryableErr e then
      runItemAttempts (retries + 1) rest
    else .rejected e

/-! ### ConnectionsService (src/connections-service.ts) -/

/-- A LinkedIn connection record (types.ts `LinkedInConnection`). -/
structure Connection where
  id : JStr
  fullName : JStr
  profilePicture : Option JStr
  currentCompany : Option JStr
  companyLogo : Option JStr
  position : Option JStr
  profileUrl : Option JStr
deriving Repr, DecidableEq

/-- One scripted transport response for a batch fetch
(`linkedInAPI.fetchConnections`): a page of connections or a thrown error. -/
inductive BatchResult
  | ok (conns : List Connection)
  | err (e : ErrObj)
deriving Repr, DecidableEq

/-- Observable events of one run of the batch-fetch loop, in order.  A
successful non-empty batch always performs the jittered inter-batch sleep
(`500 + j`); a failed batch below the threshold sleeps its escalating
delay; the failure that reaches the threshold aborts without sleeping. -/
inductive FetchEv
  | batchOk (sleep : Nat)
  | batchEmpty
  | batchFail (sleep : Nat)
  | batchFailAbort
deriving Repr, DecidableEq

/-- Result of the batch-fetch part of `getAllConnections`. -/
inductive LoopResult
  | done (conns : List Connection)
  | thrown (msg : JStr)
  | stuck
deriving Repr, DecidableEq

/-- Outcome of a run of the batch loop: its result and its event trace
(one event per transport call). -/
structure FetchOutcome where
  result : LoopResult
  events : List FetchEv
deriving Repr, DecidableEq

/-- The error message thrown after three consecutive batch failures. -/
def consecFailMsg : JStr :=
  "Failed to fetch connections after 3 consecutive failures".toList

/-- The error message thrown when no connections could be fetched. -/
def noConnMsg : JStr :=
  "No connections could be fetched. Please check your LinkedIn authentication.".toList

/-- `maxConsecutiveFailures` of `getAllConnections`. -/
def maxConsecutiveFailures : Nat := 3

/-- The fresh-fetch batch loop of `ConnectionsService.getAllConnections`
(lines 35–86), over a scripted transport (`script`) and scripted jitter
values for the success-path sleeps (`js`).  `failures` is the consecutive
failure counter, `acc` the accumulated connections.  `stuck` is returned
when the script is exhausted while the loop still wants to fetch. -/
def fetchLoop : List BatchResult → List Nat → Nat → List Connection → FetchOutcome
  | [], _, _, _ => ⟨.stuck, []⟩
  | .ok conns :: script, js, _, acc =>
    if conns.isEmpty then
      ⟨if acc.isEmpty then .thrown noConnMsg else .done acc, [.batchEmpty]⟩
    else
      let acc := acc ++ conns
      let j := js.headD 0
      if acc.length ≥ 1000 then ⟨.done acc, [.batchOk (500 + j)]⟩
      else
        let rest := fetchLoop script js.tail 0 acc
        ⟨rest.result, .batchOk (500 + j) :: rest.events⟩
  | .err _ :: script, js, failures0, acc =>
    let failures := failures0 + 1
    if failures ≥ maxConsecutiveFailures then
      ⟨.thrown consecFailMsg, [.batchFailAbort]⟩
    else
      let rest := fetchLoop script js failures acc
      ⟨rest.result, .batchFail (2000 * failures) :: rest.events⟩

/-- A fresh `getAllConnections` fetch cycle starting with no accumulated
connections and a zero failure counter. -/
def getAllConnectionsFresh (script : List BatchResult) (js : List Nat) : FetchOutcome :=
  fetchLoop script js 0 []

/-- The consecutive-failure-counter trace recomputed from an event trace
alone: a successful batch resets it to zero, every failed batch increments
it.  Used to state the batch-loop claims independently of the loop's
hidden counter. -/
def traceOk : Nat → List FetchEv → Bool
  | _, [] => true
  | _, .batchOk _ :: es => traceOk 0 es
  | _, .batchEmpty :: es => es.isEmpty
  | f, .batchFail d :: es =>
    (f + 1 < maxConsecutiveFailures) && (d == 2000 * (f + 1)) && traceOk (f + 1) es
  | f, .batchFailAbort :: es => (f + 1 == maxConsecutiveFailures) && es.isEmpty

/-- The company-logo cache key of `ConnectionsService`. -/
def companyLogoKey (company : JStr) : JStr := "company_logo_".toList ++ company

/-- The per-connection enhancement step of
`ConnectionsService.getConnectionsWithLogos`: when the connection has a
company and a truthy cached logo exists, attach it; otherwise return the
connection unchanged. -/
def enhanceConnection (store : Store) (now : Nat) (c : Connection) : Connection :=
  match c.currentCompany with
  | none => c
  | some company =>
    match (getM store (companyLogoKey company) now).1 with
    | some logo => if logo.isEmpty then c else { c with companyLogo := some logo }
    | none => c

/-- `ConnectionsService.getConnectionsWithLogos` applied to the underlying
connection list (the enrichment `map` of lines 165–184). -/
def getConnectionsWithLogos (conns : List Connection) (store : Store) (now : Nat) :
    List Connection :=
  conns.map (enhanceConnection store now)

/-! ### Concrete sample values used by witness theorems -/

/-- Does every character of `s` lie in the ASCII range? -/
def allAscii (s : JStr) : Bool := s.all (fun c => c.toNat < 128)

/-- A sample transport error whose message describes an authentication
failure (HTTP 401). -/
def authErrSample : ErrObj := ⟨"Error".toList, "HTTP 401: Unauthorized".toList⟩

/-- A sample retryable network failure (message contains "fetch"). -/
def fetchErrSample : ErrObj := ⟨"TypeError".toList, "failed to fetch".toList⟩

/-- A sample connection working at company `Acme`. -/
def sampleConn : Connection :=
  ⟨"1".toList, "A".toList, none, some "Acme".toList, none, none, none⟩

/-- A store holding a cached logo for `Acme` written at time 0 with a
24-hour TTL. -/
def sampleLogoStore : Store :=
  setM [] (companyLogoKey "Acme".toList) "http://logo".toList (24 * 60 * 60 * 1000) 0

/-! ## Lemmas about the string-level helpers -/

theorem expectLit_append (lit rest : JStr) : expectLit lit (lit ++ rest) = some rest := by
  induction lit with
  | nil => rfl
  | cons c cs ih => simp [expectLit, ih]

theorem digitChar_toNat {d : Nat} (h : d < 10) : (digitChar d).toNat = 48 + d := by
  interval_cases d <;> decide

theorem isDigitCh_digitChar {d : Nat} (h : d < 10) : isDigitCh (digitChar d) = true := by
  interval_cases d <;> decide

theorem natToDec_lt10 {n : Nat} (h : n < 10) : natToDec n = [digitChar n] := by
  simp [natToDec, natToDecAux, h]

theorem natToDecAux_eq (n : Nat) : ∀ fuel acc, n < fuel →
    natToDecAux fuel n acc = natToDec n ++ acc := by
  induction n using Nat.strong_induction_on with
  | _ n ih =>
    intro fuel acc hf
    match fuel with
    | 0 => omega
    | f + 1 =>
      by_cases h : n < 10
      · simp [natToDecAux, h, natToDec_lt10 h]
      · have hd : n / 10 < n := Nat.div_lt_self (by omega) (by omega)
        have hrec := ih (n / 10) hd
        simp only [natToDecAux, h, if_false]
        rw [hrec f _ (by omega)]
        have hrhs : natToDec n = natToDec (n / 10) ++ [digitChar (n % 10)] := by
          show natToDecAux (n + 1) n [] = _
          simp only [natToDecAux, h, if_false]
          rw [hrec n _ (by omega)]
        rw [hrhs, List.append_assoc]
        rfl

theorem natToDec_ge10 {n : Nat} (h : 10 ≤ n) :
    natToDec n = natToDec (n / 10) ++ [digitChar (n % 10)] := by
  show natToDecAux (n + 1) n [] = _
  simp only [natToDecAux, Nat.not_lt.mpr h, if_false]
  exact natToDecAux_eq (n / 10) n _ (by
    have := Nat.div_lt_self (show 0 < n by omega) (show 1 < 10 by omega)
    omega)

theorem natToDec_digits (n : Nat) : ∀ c ∈ natToDec n, isDigitCh c = true := by
  induction n using Nat.strong_induction_on with
  | _ n ih =>
    by_cases h : n < 10
    · rw [natToDec_lt10 h]
      intro c hc
      simp at hc
      subst hc
      exact isDigitCh_digitChar h
    · rw [natToDec_ge10 (by omega)]
      intro c hc
      rcases List.mem_append.mp hc with hc | hc
      · exact ih (n / 10) (Nat.div_lt_self (by omega) (by omega)) c hc
      · simp at hc
        subst hc
        exact isDigitCh_digitChar (Nat.mod_lt _ (by omega))

theorem natToDec_ne_nil (n : Nat) : natToDec n ≠ [] := by
  by_cases h : n < 10
  · rw [natToDec_lt10 h]; simp
  · rw [natToDec_ge10 (by omega)]; simp

theorem parseDecAux_append_digits (ds : JStr) : ∀ rest acc, (∀ c ∈ ds, isDigitCh c = true) →
    parseDecAux (ds ++ rest) acc =
      parseDecAux rest (ds.foldl (fun a c => a * 10 + (c.toNat - 48)) acc) := by
  induction ds with
  | nil => intro rest acc _; rfl
  | cons c cs ih =>
    intro rest acc hall
    have hc : isDigitCh c = true := hall c (by simp)
    simp only [List.cons_append, parseDecAux, hc, if_true, List.foldl_cons]
    exact ih rest _ (fun x hx => hall x (by simp [hx]))

theorem parseDecAux_nondigit (rest : JStr) (acc : Nat)
    (h : ∀ c, rest.head? = some c → isDigitCh c = false) :
    parseDecAux rest acc = (acc, rest) := by
  cases rest with
  | nil => rfl
  | cons c cs => simp [parseDecAux, h c rfl]

theorem foldl_natToDec (n : Nat) : ∀ acc,
    (natToDec n).foldl (fun a c => a * 10 + (c.toNat - 48)) acc =
      acc * 10 ^ (natToDec n).length + n := by
  induction n using Nat.strong_induction_on with
  | _ n ih =>
    intro acc
    by_cases h : n < 10
    · rw [natToDec_lt10 h]
      simp [digitChar_toNat h]
    · rw [natToDec_ge10 (by omega)]
      rw [List.foldl_append, ih (n / 10) (Nat.div_lt_self (by omega) (by omega))]
      simp only [List.foldl_cons, List.foldl_nil, List.length_append, List.length_cons,
        List.length_nil]
      rw [digitChar_toNat (Nat.mod_lt _ (by omega))]
      have : 48 + n % 10 - 48 = n % 10 := by omega
      rw [this, pow_succ]
      have hmod := Nat.div_add_mod n 10
      ring_nf
      omega

theorem parseDec_natToDec (n : Nat) (rest : JStr)
    (h : ∀ c, rest.head? = some c → isDigitCh c = false) :
    parseDec (natToDec n ++ rest) = some (n, rest) := by
  obtain ⟨c, cs, hcons⟩ : ∃ c cs, natToDec n = c :: cs := by
    cases hn : natToDec n with
    | nil => exact absurd hn (natToDec_ne_nil n)
    | cons c cs => exact ⟨c, cs, rfl⟩
  have hdig : isDigitCh c = true := natToDec_digits n c (by rw [hcons]; simp)
  rw [hcons]
  simp only [List.cons_append, parseDec, hdig, if_true]
  have hsh : c :: (cs ++ rest) = natToDec n ++ rest := by rw [hcons]; rfl
  rw [hsh]
  rw [parseDecAux_append_digits _ _ _ (natToDec_digits n)]
  rw [parseDecAux_nondigit _ _ h, foldl_natToDec]
  simp

theorem hexVal_hexDigit {m : Nat} (h : m < 16) : hexVal (hexDigit m) = some m := by
  interval_cases m <;> decide

theorem parseJsonStr_escape (s : JStr) : ∀ rest,
    parseJsonStr (escapeString s ++ '"' :: rest) = some (s, rest) := by
  induction s with
  | nil =>
    intro rest
    rw [show escapeString [] ++ '"' :: rest = '"' :: rest by simp [escapeString]]
    rw [parseJsonStr.eq_def]
    simp
  | cons c s ih =>
    intro rest
    have hes : escapeString (c :: s) ++ '"' :: rest =
        escChar c ++ (escapeString s ++ '"' :: rest) := by
      simp [escapeString]
    rw [hes, parseJsonStr.eq_def]
    by_cases h1 : c = '"'
    · subst h1
      simp [escChar, ih]
    · by_cases h2 : c = '\\'
      · subst h2
        simp [escChar, ih]
      · by_cases h3 : c.toNat = 8
        · have hc : Char.ofNat 8 = c := by rw [← h3, Char.ofNat_toNat]
          simp [escChar, h1, h2, h3, ih, hc]
          exact hc
        · by_cases h4 : c.toNat = 9
          · have hc : Char.ofNat 9 = c := by rw [← h4, Char.ofNat_toNat]
            simp [escChar, h1, h2, h3, h4, ih, hc]
            exact hc
          · by_cases h5 : c.toNat = 10
            · have hc : Char.ofNat 10 = c := by rw [← h5, Char.ofNat_toNat]
              simp [escChar, h1, h2, h3, h4, h5, ih, hc]
              exact hc
            · by_cases h6 : c.toNat = 12
              · have hc : Char.ofNat 12 = c := by rw [← h6, Char.ofNat_toNat]
                simp [escChar, h1, h2, h3, h4, h5, h6, ih, hc]
                exact hc
              · by_cases h7 : c.toNat = 13
                · have hc : Char.ofNat 13 = c := by rw [← h7, Char.ofNat_toNat]
                  simp [escChar, h1, h2, h3, h4, h5, h6, h7, ih, hc]
                  exact hc
                · by_cases h8 : c.toNat < 32
                  · have hdiv : c.toNat / 16 < 16 := by omega
                    have hmod : c.toNat % 16 < 16 := by omega
                    have hval : ((0 * 16 + 0) * 16 + c.toNat / 16) * 16 + c.toNat % 16 =
                        c.toNat := by omega
                    have hlt : c.toNat < 55296 := by omega
                    have hc : Char.ofNat c.toNat = c := Char.ofNat_toNat c
                    have h0 : hexVal '0' = some 0 := by decide
                    simp [escChar, h1, h2, h3, h4, h5, h6, h7, h8, h0,
                      hexVal_hexDigit hdiv, hexVal_hexDigit hmod, hval, hlt, ih, hc]
                    have h16 : c.toNat / 16 * 16 + c.toNat % 16 = c.toNat := by omega
                    rw [h16]
                    exact ⟨hlt, hc⟩
                  · simp [escChar, h1, h2, h3, h4, h5, h6, h7, h8, ih]

theorem parseBool_boolLit (b : Bool) (rest : JStr) :
    parseBool (boolLit b ++ rest) = some (b, rest) := by
  have ht : "true".toList = ['t', 'r', 'u', 'e'] := rfl
  have hf : "false".toList = ['f', 'a', 'l', 's', 'e'] := rfl
  cases b <;> simp [parseBool, boolLit, ht, hf, expectLit]

theorem parseDec_comma (n : Nat) (w : JStr) :
    parseDec (natToDec n ++ (',' :: w)) = some (n, ',' :: w) := by
  refine parseDec_natToDec n _ ?_
  intro c hc
  simp only [List.head?_cons, Option.some_inj] at hc
  subst hc
  decide

theorem parseDec_rbrace (n : Nat) :
    parseDec (natToDec n ++ [rbrace]) = some (n, [rbrace]) := by
  refine parseDec_natToDec n _ ?_
  intro c hc
  simp only [List.head?_cons, Option.some_inj] at hc
  subst hc
  decide

theorem parseEntry5_serializeEntry5 (e : StoredEntry) :
    parseEntry5 (serializeEntry5 e) = some e := by
  simp [parseEntry5, serializeEntry5, jsonKeyLit, expectLit, parseJsonStr_escape,
    parseDec_comma, parseDec_rbrace, parseBool_boolLit,
    show "data".toList = ['d', 'a', 't', 'a'] from rfl,
    show "timestamp".toList = ['t', 'i', 'm', 'e', 's', 't', 'a', 'm', 'p'] from rfl,
    show "ttl".toList = ['t', 't', 'l'] from rfl,
    show "compressed".toList = ['c', 'o', 'm', 'p', 'r', 'e', 's', 's', 'e', 'd'] from rfl,
    show "size".toList = ['s', 'i', 'z', 'e'] from rfl]

theorem atobJS_serializeEntry5 (e : StoredEntry) : atobJS (serializeEntry5 e) = none := by
  have hhead : serializeEntry5 e = lbrace :: (jsonKeyLit "data".toList ++
      ('"' :: (escapeString e.data ++ ['"', ','])) ++
      jsonKeyLit "timestamp".toList ++ natToDec e.timestamp ++ [','] ++
      jsonKeyLit "ttl".toList ++ natToDec e.ttl ++ [','] ++
      jsonKeyLit "compressed".toList ++ boolLit e.compressed ++ [','] ++
      jsonKeyLit "size".toList ++ natToDec e.size ++ [rbrace]) := rfl
  rw [atobJS, hhead]
  have : (isBase64Char lbrace || lbrace = '=') = false := by decide
  simp [List.all_cons, this]

theorem decompressData_serializeEntry5 (e : StoredEntry) :
    decompressData (serializeEntry5 e) = serializeEntry5 e := by
  rw [decompressData, atobJS_serializeEntry5]

theorem storageGet_storageSet_self (s : Store) (k : JStr) (v : StoredEntry) :
    storageGet (storageSet s k v) k = some v := by
  induction s with
  | nil => simp [storageSet, storageGet]
  | cons kv rest ih =>
    obtain ⟨k', v'⟩ := kv
    by_cases h : k' = k
    · subst h
      simp [storageSet, storageGet]
    · simp [storageSet, storageGet, h, ih]

/-- Claim C1: for every key, payload, and ttl, `get` immediately after
`set` returns the payload unchanged — including when the serialized entry
exceeds the compression threshold and is flagged compressed — and `get`
returns a miss (`none`) once time has advanced past the ttl. -/
theorem C1_cache_roundtrip_and_expiry (store : Store) (key data : JStr)
    (ttl now now2 : Nat) :
    (now2 - now ≤ ttl → (getM (setM store key data ttl now) key now2).1 = some data) ∧
    (now2 - now > ttl → (getM (setM store key data ttl now) key now2).1 = none) := by
  have hget : storageGet (setM store key data ttl now) (cacheKey key) =
      some (mkStoredEntry data ttl now) := by
    rw [setM]
    exact storageGet_storageSet_self _ _ _
  have hts : (mkStoredEntry data ttl now).timestamp = now := rfl
  have httl : (mkStoredEntry data ttl now).ttl = ttl := rfl
  have hdata : (mkStoredEntry data ttl now).data = data := rfl
  constructor
  · intro h
    rw [getM, hget]
    simp only [hts, httl, hdata]
    rw [if_neg (by omega)]
    by_cases hc : (mkStoredEntry data ttl now).compressed
    · simp only [hc, if_true]
      rw [decompressData_serializeEntry5, parseEntry5_serializeEntry5]
      simp [hdata]
    · simp only [hc, if_false]
      simp [hdata]
  · intro h
    rw [getM, hget]
    simp only [hts, httl]
    rw [if_pos (by omega)]

/-- Witness for C1 at concrete inputs: a small payload (stored
uncompressed) and a payload above the compression threshold (flagged
compressed), each read back unchanged, and a read past the ttl missing. -/
theorem C1_witness :
    (getM (setM [] "k".toList "hello".toList 100 50) "k".toList 150).1 =
      some "hello".toList ∧
    (getM (setM [] "big".toList (List.replicate 1100 'a') 100 50) "big".toList 150).1 =
      some (List.replicate 1100 'a') ∧
    (getM (setM [] "k".toList "hello".toList 100 50) "k".toList 151).1 = none :=
  ⟨(C1_cache_roundtrip_and_expiry [] "k".toList "hello".toList 100 50 150).1 (by decide),
   (C1_cache_roundtrip_and_expiry [] "big".toList (List.replicate 1100 'a') 100 50 150).1
     (by decide),
   (C1_cache_roundtrip_and_expiry [] "k".toList "hello".toList 100 50 151).2 (by decide)⟩

/-! ## Lemmas about sizes, for the storage-ceiling claim -/

theorem utf8EncodeChar_length_pos (c : Char) : 1 ≤ (utf8EncodeChar c).length := by
  rw [utf8EncodeChar]
  split_ifs <;> simp

theorem utf8Encode_length_ge (s : JStr) : s.length ≤ (utf8Encode s).length := by
  induction s with
  | nil => simp [utf8Encode]
  | cons c cs ih =>
    have h1 := utf8EncodeChar_length_pos c
    simp only [utf8Encode, List.flatMap_cons, List.length_append, List.length_cons]
    have : (cs.flatMap utf8EncodeChar).length = (utf8Encode cs).length := rfl
    omega

theorem base64Encode_length_ge (bs : List Nat) : bs.length ≤ (base64Encode bs).length := by
  induction bs using base64Encode.induct
  all_goals simp_all [base64Encode]
  all_goals omega

theorem compressData_length_ge (s : JStr) : s.length ≤ (compressData s).length :=
  le_trans (utf8Encode_length_ge s) (base64Encode_length_ge _)

theorem escChar_length_pos (c : Char) : 1 ≤ (escChar c).length := by
  rw [escChar]
  split_ifs <;> simp

theorem escapeString_length_ge (s : JStr) : s.length ≤ (escapeString s).length := by
  induction s with
  | nil => simp [escapeString]
  | cons c cs ih =>
    have h1 := escChar_length_pos c
    simp only [escapeString, List.flatMap_cons, List.length_append, List.length_cons]
    have : (cs.flatMap escChar).length = (escapeString cs).length := rfl
    omega

theorem serializeEntry3_length_ge (data : JStr) (ts ttl : Nat) :
    data.length ≤ (serializeEntry3 data ts ttl).length := by
  have h := escapeString_length_ge data
  simp only [serializeEntry3, List.length_append, List.length_cons]
  omega

theorem mkStoredEntry_size_ge (data : JStr) (ttl now : Nat) :
    data.length ≤ (mkStoredEntry data ttl now).size := by
  have h3 := serializeEntry3_length_ge data now ttl
  simp only [mkStoredEntry]
  by_cases h : (serializeEntry3 data now ttl).length > COMPRESSION_THRESHOLD
  · simp only [h, if_true]
    exact le_trans h3 (compressData_length_ge _)
  · simp only [h, if_false]
    exact h3

theorem isPrefixOf_append_self (l t : JStr) : l.isPrefixOf (l ++ t) = true := by
  induction l with
  | nil => simp [List.isPrefixOf]
  | cons c cs ih => simp [List.isPrefixOf, ih]

theorem totalSize_single_set (k data : JStr) (ttl : Nat) :
    data.length ≤ (getCacheStatsM (setM [] k data ttl 0) 0).totalSize := by
  have hset : setM [] k data ttl 0 = [(cacheKey k, mkStoredEntry data ttl 0)] := rfl
  have hge := mkStoredEntry_size_ge data ttl 0
  have hts : (mkStoredEntry data ttl 0).timestamp = 0 := rfl
  have hpre : cachePrefixStr.isPrefixOf (cacheKey k) = true := isPrefixOf_append_self _ _
  by_cases hz : (mkStoredEntry data ttl 0).size = 0
  · have : data.length = 0 := by omega
    simp [this]
  · rw [hset]
    simp [getCacheStatsM, statsStep, hpre, hz, hts]
    omega

/-- Counterexample to claim C2: a single `set` of a payload larger than the
5 MB ceiling leaves the cache total size above the ceiling — the pre-write
eviction only looks at the size already stored, never at the incoming
entry. -/
theorem C2_counterexample :
    MAX_CACHE_SIZE <
      (getCacheStatsM (setM [] "k".toList (List.replicate 6000000 'a') 1 0) 0).totalSize := by
  have h := totalSize_single_set "k".toList (List.replicate 6000000 'a') 1
  rw [List.length_replicate] at h
  have hmax : MAX_CACHE_SIZE = 5242880 := rfl
  omega

/-- Claim C2 (amended): the pre-write eviction pass runs only when the
total size *already stored* exceeds the 5 MB ceiling; when the cache is at
or under the ceiling, `set` is a plain write with no eviction at all, and
(per the counterexample) the post-write total may exceed the ceiling. -/
theorem C2_amended_eviction_only_when_over (store : Store) (k d : JStr) (ttl now : Nat)
    (h : (getCacheStatsM store now).totalSize ≤ MAX_CACHE_SIZE) :
    setM store k d ttl now = storageSet store (cacheKey k) (mkStoredEntry d ttl now) := by
  rw [setM, enforceStorageLimitM, if_neg (by omega)]

/-- Witness for the amended C2 at a concrete input. -/
theorem C2_amended_witness :
    setM [] "k".toList "v".toList 5 0 =
      storageSet [] (cacheKey "k".toList) (mkStoredEntry "v".toList 5 0) :=
  C2_amended_eviction_only_when_over [] "k".toList "v".toList 5 0 (by decide)

/-! ## Request-queue claims -/

/-- Claim C3: a queued item that fails with a retryable error (rate limit,
timeout, or network) exactly `maxRetries` (3) times and then succeeds
resolves successfully; one that fails `maxRetries + 1` times is rejected
with the last error; a non-retryable error rejects immediately with no
retry. -/
theorem C3_retry_policy :
    (∀ (es : List ErrObj) (v : JStr), (∀ e ∈ es, isRetryableErr e = true) →
      (es.length = maxRetries →
        runItemAttempts 0 (es.map .failure ++ [.success v]) = .resolved v) ∧
      (es.length = maxRetries + 1 → ∀ elast, es.getLast? = some elast →
        runItemAttempts 0 (es.map .failure) = .rejected elast)) ∧
    (∀ (e : ErrObj) (rest : List AttemptResult), isRetryableErr e = false →
      runItemAttempts 0 (.failure e :: rest) = .rejected e) := by
  constructor
  · intro es v hall
    constructor
    · intro hlen
      have hlen3 : es.length = 3 := hlen
      obtain ⟨a, b, c, rfl⟩ := List.length_eq_three.mp hlen3
      have ha := hall a (by simp)
      have hb := hall b (by simp)
      have hc := hall c (by simp)
      simp [runItemAttempts, maxRetries, ha, hb, hc]
    · intro hlen elast hel
      have hlen4 : es.length = 4 := hlen
      rcases es with _ | ⟨a, es⟩
      · simp at hlen4
      rcases es with _ | ⟨b, es⟩
      · simp at hlen4
      rcases es with _ | ⟨c, es⟩
      · simp at hlen4
      rcases es with _ | ⟨d, es⟩
      · simp at hlen4
      rcases es with _ | ⟨x, es⟩
      · have ha := hall a (by simp)
        have hb := hall b (by simp)
        have hc := hall c (by simp)
        simp at hel
        subst hel
        simp [runItemAttempts, maxRetries, ha, hb, hc]
      · simp at hlen4
  · intro e rest hne
    simp [runItemAttempts, hne]

/-- Witness for C3 at concrete inputs: three network failures then a
success resolve; four retryable failures reject with the last one; an
auth-style (non-retryable) failure rejects immediately. -/
theorem C3_witness :
    runItemAttempts 0
        ([fetchErrSample, fetchErrSample, fetchErrSample].map AttemptResult.failure ++
          [.success "ok".toList]) = .resolved "ok".toList ∧
    runItemAttempts 0
        ([fetchErrSample, fetchErrSample, fetchErrSample, fetchErrSample].map
          AttemptResult.failure) = .rejected fetchErrSample ∧
    runItemAttempts 0 [.failure authErrSample] = .rejected authErrSample :=
  ⟨(C3_retry_policy.1 [fetchErrSample, fetchErrSample, fetchErrSample] "ok".toList
      (by decide)).1 (by decide),
   (C3_retry_policy.1 [fetchErrSample, fetchErrSample, fetchErrSample, fetchErrSample]
      "ok".toList (by decide)).2 (by decide) fetchErrSample (by decide),
   C3_retry_policy.2 authErrSample [] (by decide)⟩

theorem backoffAfterCycle_eq (b : Nat) : backoffAfterCycle b = b - 1000 := by
  rw [backoffAfterCycle, cycleSleeps]
  split_ifs <;> simp <;> omega

/-- Claim C4: a throttling response sets the shared global backoff to
`max(current, serverDelay)` where the server delay is the parsed
`retry-after` header in ms, or 5000 ms by default; the sleeps of the next
worker cycle total at least the backoff; and absent further throttling the
backoff decays monotonically toward zero by the worker's fixed 1000 ms
step. -/
theorem C4_throttle_backoff (current r ts rd k : Nat) :
    (observeThrottle current (some r)).2 = r * 1000 ∧
    (observeThrottle current none).2 = 5000 ∧
    (∀ hdr, (observeThrottle current hdr).1 =
      max current (observeThrottle current hdr).2) ∧
    (∀ hdr, current ≤ (observeThrottle current hdr).1 ∧
      (observeThrottle current hdr).2 ≤ (observeThrottle current hdr).1) ∧
    (∀ b, b ≤ (cycleSleeps b ts rd).1.sum) ∧
    (∀ b, backoffAfterCycle b ≤ b) ∧
    (∀ b, backoffAfterCycle^[k] b = b - 1000 * k) := by
  refine ⟨rfl, rfl, fun hdr => rfl, fun hdr => ⟨le_max_left _ _, le_max_right _ _⟩,
    ?_, ?_, ?_⟩
  · intro b
    rw [cycleSleeps]
    split_ifs <;> simp <;> omega
  · intro b
    rw [backoffAfterCycle_eq]
    omega
  · intro b
    induction k generalizing b with
    | zero => simp
    | succ k ih =>
      rw [Function.iterate_succ_apply, backoffAfterCycle_eq, ih]
      omega

/-- Claim C5: queue items are dispatched in priority order with FIFO
tie-break — priorities enqueued as 3, 1, 2 dispatch as 3, 2, 1, and of two
items enqueued with equal priority the earlier one dispatches first. -/
theorem C5_dispatch_priority_fifo :
    drainOrder (insertByPriority (insertByPriority (insertByPriority []
        ⟨"P3".toList, 3, 0⟩) ⟨"P1".toList, 1, 0⟩) ⟨"P2".toList, 2, 0⟩) =
      ["P3".toList, "P2".toList, "P1".toList] ∧
    (∀ (p : Nat) (a b : JStr),
      drainOrder (insertByPriority (insertByPriority [] ⟨a, p, 0⟩) ⟨b, p, 0⟩) =
        [a, b]) := by
  refine ⟨by decide, ?_⟩
  intro p a b
  simp [insertByPriority, drainOrder, lt_irrefl]

/-! ## Error-handler log claims -/

theorem logError_errorLog (s : ErrorHandlerState) (e : ExtensionError) :
    (logError s e).errorLog = (e :: s.errorLog).take MAX_LOG_SIZE := by
  have hlog2 : (if (e :: s.errorLog).length > MAX_LOG_SIZE
      then (e :: s.errorLog).take MAX_LOG_SIZE else (e :: s.errorLog)) =
      (e :: s.errorLog).take MAX_LOG_SIZE := by
    split_ifs with h
    · rfl
    · exact (List.take_of_length_le (by omega)).symm
  simp only [logError, hlog2]
  by_cases hr : e.recoverable <;> simp [hr, storeCriticalError]

theorem logError_criticalErrors (s : ErrorHandlerState) (e : ExtensionError) :
    (logError s e).criticalErrors =
      (if e.recoverable then s.criticalErrors
       else ((⟨e.type, e.message, e.originalError.map (·.message), e.timestamp⟩ :
          CriticalError) :: s.criticalErrors).take 10) := by
  simp only [logError]
  by_cases hr : e.recoverable <;> simp [hr, storeCriticalError]

theorem createError_errorLog (s : ErrorHandlerState) (t : ErrorType) (msg : JStr)
    (oe : Option ErrObj) (now : Nat) :
    (createError s t msg oe now).2.errorLog =
      ((createError s t msg oe now).1 :: s.errorLog).take MAX_LOG_SIZE :=
  logError_errorLog s _

theorem createError_criticalErrors (s : ErrorHandlerState) (t : ErrorType) (msg : JStr)
    (oe : Option ErrObj) (now : Nat) :
    (createError s t msg oe now).2.criticalErrors =
      (if isRecoverable t then s.criticalErrors
       else ((⟨t, msg, oe.map (·.message), now⟩ : CriticalError)
          :: s.criticalErrors).take 10) :=
  logError_criticalErrors s _

theorem errorState_bounds_preserved (inputs : List ClassifyInput) :
    ∀ s : ErrorHandlerState, s.errorLog.length ≤ MAX_LOG_SIZE →
      s.criticalErrors.length ≤ 10 →
      (runClassifications s inputs).errorLog.length ≤ MAX_LOG_SIZE ∧
      (runClassifications s inputs).criticalErrors.length ≤ 10 := by
  induction inputs with
  | nil => intro s h1 h2; exact ⟨h1, h2⟩
  | cons i is ih =>
    intro s h1 h2
    rw [runClassifications]
    refine ih _ ?_ ?_
    · rw [createError_errorLog]
      have := List.length_take_le MAX_LOG_SIZE
        ((createError s i.type i.message i.originalError i.now).1 :: s.errorLog)
      exact this
    · rw [createError_criticalErrors]
      split_ifs
      · exact h2
      · exact List.length_take_le 10 _

/-- Claim C9: after any sequence of classifications the rolling in-memory
log holds at most 100 entries (newest prepended, oldest dropped by the
cap), the durable critical log holds at most 10 entries, and a
classification is appended to the durable log exactly when its kind is
non-recoverable. -/
theorem C9_error_log_bounds (inputs : List ClassifyInput) :
    ((runClassifications initErrorState inputs).errorLog.length ≤ MAX_LOG_SIZE ∧
     (runClassifications initErrorState inputs).criticalErrors.length ≤ 10) ∧
    (∀ (s : ErrorHandlerState) (i : ClassifyInput),
      (createError s i.type i.message i.originalError i.now).2.errorLog =
        ((createError s i.type i.message i.originalError i.now).1 :: s.errorLog).take
          MAX_LOG_SIZE ∧
      (createError s i.type i.message i.originalError i.now).2.criticalErrors =
        (if isRecoverable i.type then s.criticalErrors
         else ((⟨i.type, i.message, i.originalError.map (·.message), i.now⟩ : CriticalError)
            :: s.criticalErrors).take 10)) :=
  ⟨errorState_bounds_preserved inputs initErrorState (by simp [initErrorState])
      (by simp [initErrorState]),
   fun s i => ⟨createError_errorLog s i.type i.message i.originalError i.now,
     createError_criticalErrors s i.type i.message i.originalError i.now⟩⟩

/-! ## Orchestrator batch-loop claims -/

theorem getLast?_abort_cons (ev : FetchEv) (hne : ev ≠ .batchFailAbort)
    (es : List FetchEv) :
    ((ev :: es).getLast? = some FetchEv.batchFailAbort ↔
      es.getLast? = some FetchEv.batchFailAbort) := by
  cases es with
  | nil => simp [List.getLast?, hne]
  | cons x xs => rw [List.getLast?_cons_cons]

theorem fetchLoop_ok_empty (conns : List Connection) (script : List BatchResult)
    (js : List Nat) (f : Nat) (acc : List Connection) (h : conns.isEmpty = true) :
    fetchLoop (.ok conns :: script) js f acc =
      ⟨if acc.isEmpty then .thrown noConnMsg else .done acc, [.batchEmpty]⟩ := by
  rw [fetchLoop.eq_def]
  simp [h]

theorem fetchLoop_ok_cap (conns : List Connection) (script : List BatchResult)
    (js : List Nat) (f : Nat) (acc : List Connection) (h : ¬ conns.isEmpty = true)
    (hcap : (acc ++ conns).length ≥ 1000) :
    fetchLoop (.ok conns :: script) js f acc =
      ⟨.done (acc ++ conns), [.batchOk (500 + js.headD 0)]⟩ := by
  rw [fetchLoop.eq_def]
  simp only [h, Bool.false_eq_true, if_false, if_pos hcap]

theorem fetchLoop_ok_cont (conns : List Connection) (script : List BatchResult)
    (js : List Nat) (f : Nat) (acc : List Connection) (h : ¬ conns.isEmpty = true)
    (hcap : ¬ (acc ++ conns).length ≥ 1000) :
    fetchLoop (.ok conns :: script) js f acc =
      ⟨(fetchLoop script js.tail 0 (acc ++ conns)).result,
        .batchOk (500 + js.headD 0) :: (fetchLoop script js.tail 0 (acc ++ conns)).events⟩ := by
  rw [fetchLoop.eq_def]
  simp only [h, Bool.false_eq_true, if_false, if_neg hcap]

theorem fetchLoop_err_abort (e : ErrObj) (script : List BatchResult) (js : List Nat)
    (f : Nat) (acc : List Connection) (h : f + 1 ≥ maxConsecutiveFailures) :
    fetchLoop (.err e :: script) js f acc = ⟨.thrown consecFailMsg, [.batchFailAbort]⟩ := by
  rw [fetchLoop.eq_def]
  simp only [if_pos h]

theorem fetchLoop_err_cont (e : ErrObj) (script : List BatchResult) (js : List Nat)
    (f : Nat) (acc : List Connection) (h : ¬ f + 1 ≥ maxConsecutiveFailures) :
    fetchLoop (.err e :: script) js f acc =
      ⟨(fetchLoop script js (f + 1) acc).result,
        .batchFail (2000 * (f + 1)) :: (fetchLoop script js (f + 1) acc).events⟩ := by
  rw [fetchLoop.eq_def]
  simp only [if_neg h]

theorem fetchLoop_trace (script : List BatchResult) :
    ∀ (js : List Nat) (f : Nat) (acc : List Connection), f < maxConsecutiveFailures →
      traceOk f (fetchLoop script js f acc).events = true ∧
      ((fetchLoop script js f acc).result = .thrown consecFailMsg ↔
        (fetchLoop script js f acc).events.getLast? = some .batchFailAbort) := by
  induction script with
  | nil =>
    intro js f acc hf
    simp [fetchLoop, traceOk]
  | cons r script ih =>
    intro js f acc hf
    cases r with
    | ok conns =>
      by_cases hempty : conns.isEmpty = true
      · rw [fetchLoop_ok_empty conns script js f acc hempty]
        constructor
        · simp [traceOk]
        · constructor
          · intro hres
            split_ifs at hres with hacc
            all_goals
              exact absurd (show noConnMsg = consecFailMsg by injection hres) (by decide)
          · intro hlast
            simp [List.getLast?] at hlast
      · by_cases hcap : (acc ++ conns).length ≥ 1000
        · rw [fetchLoop_ok_cap conns script js f acc hempty hcap]
          constructor
          · simp [traceOk]
          · simp [List.getLast?]
        · rw [fetchLoop_ok_cont conns script js f acc hempty hcap]
          have hrec := ih js.tail 0 (acc ++ conns) (by decide)
          constructor
          · simpa [traceOk] using hrec.1
          · rw [getLast?_abort_cons _ (by simp) _]
            exact hrec.2
    | err e =>
      by_cases habort : f + 1 ≥ maxConsecutiveFailures
      · rw [fetchLoop_err_abort e script js f acc habort]
        have hf3 : f + 1 = maxConsecutiveFailures := by
          have h1 : f < 3 := hf
          have h2 : f + 1 ≥ 3 := habort
          show f + 1 = 3
          omega
        constructor
        · simp [traceOk, hf3]
        · simp [List.getLast?]
      · rw [fetchLoop_err_cont e script js f acc habort]
        have hrec := ih js (f + 1) acc (by omega)
        constructor
        · have hlt : f + 1 < maxConsecutiveFailures := by omega
          simp [traceOk, hlt, hrec.1]
        · rw [getLast?_abort_cons _ (by simp) _]
          exact hrec.2

/-- Claim C6: over any scripted transport, the batch-fetch loop's trace
has its consecutive-failure counter (recomputed from the trace alone)
reset to zero by every successful batch, every failed batch below the
threshold sleeps `2000 · failureCount` ms, and the loop aborts with the
consecutive-failure error exactly when the trace ends in a failure that
reaches the threshold of 3. -/
theorem C6_orchestrator_batch_loop (script : List BatchResult) (js : List Nat) :
    traceOk 0 (getAllConnectionsFresh script js).events = true ∧
    ((getAllConnectionsFresh script js).result = .thrown consecFailMsg ↔
      (getAllConnectionsFresh script js).events.getLast? = some .batchFailAbort) :=
  fetchLoop_trace script js 0 [] (by decide)

/-- Counterexample to claim C7: a transport that throws an authentication
failure (HTTP 401) on every batch is *not* surfaced immediately — the
classifier never produces the Auth kind for thrown batch errors, the
orchestrator retries the batch twice (three transport calls in all), and
the caller receives the generic consecutive-failures error instead of the
original auth error. -/
theorem C7_counterexample :
    (getAllConnectionsFresh [.err authErrSample, .err authErrSample, .err authErrSample]
        []).events.length = 3 ∧
    (getAllConnectionsFresh [.err authErrSample, .err authErrSample, .err authErrSample]
        []).result = .thrown consecFailMsg ∧
    classifyNetwork authErrSample = .NETWORK ∧
    isRecoverable (classifyNetwork authErrSample) = true := by
  decide

/-- Claim C7 (amended): a thrown batch error is always classified as a
recoverable kind (Timeout, RateLimit or Network — never Auth/Permission),
and a failure on the first batch is retried like any other batch failure:
the loop sleeps the escalating 2000 ms delay and continues instead of
returning the error to the caller. -/
theorem C7_amended_first_batch_failure_retried (e : ErrObj) (js : List Nat) :
    (classifyNetwork e = .TIMEOUT ∨ classifyNetwork e = .RATE_LIMIT ∨
      classifyNetwork e = .NETWORK) ∧
    isRecoverable (classifyNetwork e) = true ∧
    getAllConnectionsFresh [.err e] js = ⟨.stuck, [.batchFail 2000]⟩ := by
  refine ⟨?_, ?_, rfl⟩
  · rw [classifyNetwork]
    split_ifs <;> simp
  · rw [classifyNetwork]
    split_ifs <;> rfl

/-! ## Cache-corruption claim -/

/-- Counterexample to claim C8: a compressed-flagged entry whose stored
payload fails to decompress (`atob` rejects it) is *not* treated as a
miss: `get` returns its `data` field and the entry stays in the store. -/
theorem C8_counterexample :
    atobJS (serializeEntry5 (⟨"corrupt".toList, 50, 100, true, 2000⟩ : StoredEntry)) =
      none ∧
    (getM [(cacheKey "k".toList, ⟨"corrupt".toList, 50, 100, true, 2000⟩)] "k".toList
        60).1 = some "corrupt".toList ∧
    (getM [(cacheKey "k".toList, ⟨"corrupt".toList, 50, 100, true, 2000⟩)] "k".toList
        60).2 = [(cacheKey "k".toList, ⟨"corrupt".toList, 50, 100, true, 2000⟩)] := by
  decide

/-- Claim C8 (amended): the decompression failure on a compressed-flagged,
non-expired entry is swallowed inside `decompressData` (which returns its
input unchanged); `get` then re-parses the serialized entry and returns
its `data` field — the read is a hit, not a miss, and the entry is not
deleted. -/
theorem C8_amended_decompression_failure_swallowed (store : Store) (key : JStr)
    (e : StoredEntry) (now : Nat) (hget : storageGet store (cacheKey key) = some e)
    (hcomp : e.compressed = true) (hfresh : ¬ now - e.timestamp > e.ttl) :
    decompressData (serializeEntry5 e) = serializeEntry5 e ∧
    getM store key now = (some e.data, store) := by
  refine ⟨decompressData_serializeEntry5 e, ?_⟩
  simp [getM, hget, hfresh, hcomp, decompressData_serializeEntry5,
    parseEntry5_serializeEntry5]

/-- Witness for the amended C8 at a concrete corrupt entry. -/
theorem C8_amended_witness :
    getM [(cacheKey "k".toList, (⟨"corrupt2".toList, 50, 100, true, 2000⟩ : StoredEntry))]
        "k".toList 60 =
      (some "corrupt2".toList,
        [(cacheKey "k".toList, ⟨"corrupt2".toList, 50, 100, true, 2000⟩)]) :=
  (C8_amended_decompression_failure_swallowed
    [(cacheKey "k".toList, ⟨"corrupt2".toList, 50, 100, true, 2000⟩)] "k".toList
    ⟨"corrupt2".toList, 50, 100, true, 2000⟩ 60 (by decide) (by decide) (by decide)).2

/-! ## Enrichment frame claim -/

/-- Claim C10: `getConnectionsWithLogos` returns a list of the same length
and order as the underlying connection list; every field other than
`companyLogo` is unchanged, and `companyLogo` is changed only when a
truthy cached logo exists for that connection's company (in which case it
is set to that logo). -/
theorem C10_enrichment_frame (conns : List Connection) (store : Store) (now : Nat) :
    (getConnectionsWithLogos conns store now).length = conns.length ∧
    (∀ (i : Nat) (h1 : i < conns.length)
        (h2 : i < (getConnectionsWithLogos conns store now).length),
      ((getConnectionsWithLogos conns store now).get ⟨i, h2⟩).id =
        (conns.get ⟨i, h1⟩).id ∧
      ((getConnectionsWithLogos conns store now).get ⟨i, h2⟩).fullName =
        (conns.get ⟨i, h1⟩).fullName ∧
      ((getConnectionsWithLogos conns store now).get ⟨i, h2⟩).profilePicture =
        (conns.get ⟨i, h1⟩).profilePicture ∧
      ((getConnectionsWithLogos conns store now).get ⟨i, h2⟩).currentCompany =
        (conns.get ⟨i, h1⟩).currentCompany ∧
      ((getConnectionsWithLogos conns store now).get ⟨i, h2⟩).position =
        (conns.get ⟨i, h1⟩).position ∧
      ((getConnectionsWithLogos conns store now).get ⟨i, h2⟩).profileUrl =
        (conns.get ⟨i, h1⟩).profileUrl ∧
      (((getConnectionsWithLogos conns store now).get ⟨i, h2⟩).companyLogo =
          (conns.get ⟨i, h1⟩).companyLogo ∨
        ∃ company logo, (conns.get ⟨i, h1⟩).currentCompany = some company ∧
          (getM store (companyLogoKey company) now).1 = some logo ∧ logo ≠ [] ∧
          ((getConnectionsWithLogos conns store now).get ⟨i, h2⟩).companyLogo =
            some logo)) := by
  constructor
  · simp [getConnectionsWithLogos]
  · intro i h1 h2
    have hmap : (getConnectionsWithLogos conns store now).get ⟨i, h2⟩ =
        enhanceConnection store now (conns.get ⟨i, h1⟩) := by
      simp [getConnectionsWithLogos]
    rw [hmap, enhanceConnection]
    cases hcc : (conns.get ⟨i, h1⟩).currentCompany with
    | none =>
      have hcc2 : conns[i].currentCompany = none := hcc
      simp [hcc, hcc2]
    | some company =>
      have hcc2 : conns[i].currentCompany = some company := hcc
      cases hlog : (getM store (companyLogoKey company) now).1 with
      | none => simp [hlog, hcc, hcc2]
      | some logo =>
        by_cases hemp : logo.isEmpty
        · simp [hlog, hemp, hcc, hcc2]
        · have hne : logo ≠ [] := by
            simpa [List.isEmpty_iff] using hemp
          simp only [hlog]
          rw [if_neg hemp]
          refine ⟨rfl, rfl, rfl, ?_, rfl, rfl,
            Or.inr ⟨company, logo, ?_, ?_, hne, ?_⟩⟩ <;>
            first
            | rfl
            | exact hcc
            | exact hcc.symm
            | exact hlog

/-- Witness for C10 at a concrete connection and logo store. -/
theorem C10_witness :
    (getConnectionsWithLogos [sampleConn] sampleLogoStore 50).length = 1 ∧
    ((getConnectionsWithLogos [sampleConn] sampleLogoStore 50).get
        ⟨0, by simp [getConnectionsWithLogos]⟩).id =
      ([sampleConn].get ⟨0, by decide⟩).id :=
  ⟨(C10_enrichment_frame [sampleConn] sampleLogoStore 50).1,
   ((C10_enrichment_frame [sampleConn] sampleLogoStore 50).2 0 (by decide)
      (by simp [getConnectionsWithLogos])).1⟩

end LinkedInExt
